import Mathlib

/-!
Verification development for the fungible-token contract in `src/ft/src/lib.rs`.

The contract itself is a thin wrapper: the balance ledger, registration
lifecycle and transfer-and-call settlement are produced by the
`near_contract_standards::impl_fungible_token_core!` and
`impl_fungible_token_storage!` macro invocations (lines 86-87), whose
expansion is not part of this repository's sources.  Those operations are
therefore modelled from the specification (each such definition carries a
doc comment starting `Modelled from the spec:`).  The code that is present
in `lib.rs` — `new`, `new_default_meta`, the `on_account_closed` and
`on_tokens_burned` hooks, and the `PanicOnDefault` initialization guard —
is embedded directly.
-/

namespace KaizoFT

abbrev AccountId := String

/-- The largest value representable in a `u128` balance. -/
def U128_MAX : Nat := 2 ^ 128 - 1

/-- The error taxonomy of the specification (§7). -/
inductive FtError
  | AlreadyRegistered
  | NotRegistered
  | BalanceNotEmpty
  | InsufficientBalance
  | InsufficientDeposit
  | SelfTransferNotAllowed
  | ZeroAmount
  | Overflow
  | ReceiverTrapped
  deriving DecidableEq, Repr

/-- Observable hook events: `on_tokens_burned(id, amount)` and
`on_account_closed(id, balance)` (`lib.rs` lines 77-83 log these). -/
inductive Event
  | tokensBurned (id : AccountId) (amount : Nat)
  | accountClosed (id : AccountId) (balance : Nat)
  deriving DecidableEq, Repr

/-- Sum of all amounts reported through the `on_tokens_burned` hook. -/
def burnedTotal : List Event → Nat
  | [] => 0
  | Event.tokensBurned _ a :: t => a + burnedTotal t
  | Event.accountClosed _ _ :: t => burnedTotal t

/-- Contract state: the ledger table (account → balance), the immutable
total supply set at genesis, and the log of hook events. -/
structure FT where
  accounts : List (AccountId × Nat)
  total_supply : Nat
  events : List Event
  deriving DecidableEq, Repr

/-- Association-list lookup of a balance (first matching key). -/
def lookupBal : List (AccountId × Nat) → AccountId → Option Nat
  | [], _ => none
  | (k, v) :: t, id => if k = id then some v else lookupBal t id

/-- Overwrite the balance stored at the first occurrence of a key. -/
def setBal : List (AccountId × Nat) → AccountId → Nat → List (AccountId × Nat)
  | [], _, _ => []
  | (k, v) :: t, id, b => if k = id then (k, b) :: t else (k, v) :: setBal t id b

/-- Remove the first occurrence of a key. -/
def removeAcc : List (AccountId × Nat) → AccountId → List (AccountId × Nat)
  | [], _ => []
  | (k, v) :: t, id => if k = id then t else (k, v) :: removeAcc t id

/-- Sum of all balances held in the ledger table. -/
def sumBal : List (AccountId × Nat) → Nat
  | [] => 0
  | (_, v) :: t => v + sumBal t

/-- Modelled from the spec (§4.3, missing macro expansion of
`impl_fungible_token_storage!`): `register(id)` fails with
`AlreadyRegistered` if already registered, otherwise creates a zero
balance entry. -/
def register (s : FT) (id : AccountId) : Except FtError FT :=
  match lookupBal s.accounts id with
  | some _ => Except.error FtError.AlreadyRegistered
  | none => Except.ok { s with accounts := (id, 0) :: s.accounts }

/-- Modelled from the spec (§4.4, missing macro expansion):
`deposit(id, amount)` fails with `NotRegistered` if `id` is absent and
with `Overflow` if the addition would exceed `u128::MAX`. -/
def deposit (s : FT) (id : AccountId) (amount : Nat) : Except FtError FT :=
  match lookupBal s.accounts id with
  | none => Except.error FtError.NotRegistered
  | some b =>
    if U128_MAX < b + amount then Except.error FtError.Overflow
    else Except.ok { s with accounts := setBal s.accounts id (b + amount) }

/-- Modelled from the spec (§4.4, missing macro expansion):
`withdraw(id, amount)` fails with `NotRegistered` if absent and with
`InsufficientBalance` if `balance < amount`. -/
def withdraw (s : FT) (id : AccountId) (amount : Nat) : Except FtError FT :=
  match lookupBal s.accounts id with
  | none => Except.error FtError.NotRegistered
  | some b =>
    if b < amount then Except.error FtError.InsufficientBalance
    else Except.ok { s with accounts := setBal s.accounts id (b - amount) }

/-- Modelled from the spec (§4.4, missing macro expansion of
`impl_fungible_token_core!`): `transfer(from, to, amount, memo)` fails
with `SelfTransferNotAllowed` if `from == to`, `ZeroAmount` if
`amount == 0`, `NotRegistered` if either account is absent,
`InsufficientBalance` if the sender's balance is below `amount`, and
otherwise atomically moves `amount` (checks first, then a single commit,
so a failure has no partial effect). -/
def transfer (s : FT) (src dst : AccountId) (amount : Nat) (memo : Option String) :
    Except FtError FT :=
  if src = dst then Except.error FtError.SelfTransferNotAllowed
  else if amount = 0 then Except.error FtError.ZeroAmount
  else match lookupBal s.accounts src, lookupBal s.accounts dst with
  | none, _ => Except.error FtError.NotRegistered
  | some _, none => Except.error FtError.NotRegistered
  | some bs, some bd =>
    if bs < amount then Except.error FtError.InsufficientBalance
    else if U128_MAX < bd + amount then Except.error FtError.Overflow
    else Except.ok
      { s with accounts := setBal (setBal s.accounts src (bs - amount)) dst (bd + amount) }

/-- The receiver's response to the transfer-and-call callback: either a
trap, or a reported number of unused tokens. -/
inductive Outcome
  | trap
  | value (unused : Nat)
  deriving DecidableEq, Repr

/-- Modelled from the spec (§4.5 step 2): the unused amount reported by
the receiver — a trap counts as full rejection (`unused = amount`) and a
reported value outside `[0, amount]` is clamped to `amount`. -/
def outcomeUnused (amount : Nat) : Outcome → Nat
  | Outcome.trap => amount
  | Outcome.value u => min u amount

/-- Modelled from the spec (§4.5 step 3): the refund actually sent back
to the sender — the reported unused amount clamped to the receiver's
remaining balance, re-read at settlement time (§5). -/
def refundAmount (s : FT) (receiver : AccountId) (amount : Nat) (o : Outcome) : Nat :=
  min (outcomeUnused amount o) ((lookupBal s.accounts receiver).getD 0)

/-- Move `refund` from the receiver's balance back to the sender's
(the sender's balance is re-read after the receiver withdrawal, §5). -/
def applyRefund (s : FT) (sender receiver : AccountId) (refund : Nat) : FT :=
  let acc1 := setBal s.accounts receiver
    ((lookupBal s.accounts receiver).getD 0 - refund)
  { s with accounts := setBal acc1 sender ((lookupBal acc1 sender).getD 0 + refund) }

/-- Modelled from the spec (§4.5 steps 2-4, missing macro expansion):
settlement of a transfer-and-call.  A trap is treated as full rejection;
the refund is clamped to the receiver's remaining balance, so this step is
total — it never fails and never drives a balance negative; the second
component is the amount actually kept by the receiver.  The spec never
burns outside the forced-close path (§3 SupplyState), so if the sender is
no longer registered the tokens stay with the receiver. -/
def resolve (s : FT) (sender receiver : AccountId) (amount : Nat) (o : Outcome) :
    FT × Nat :=
  match lookupBal s.accounts sender with
  | none => (s, amount)
  | some _ =>
    if refundAmount s receiver amount o = 0 then (s, amount)
    else (applyRefund s sender receiver (refundAmount s receiver amount o),
          amount - refundAmount s receiver amount o)

/-- Modelled from the spec (§4.3, missing macro expansion of
`impl_fungible_token_storage!`): `unregister(id, force)` fails with
`NotRegistered` if absent; with `force == false` and a positive balance it
fails with `BalanceNotEmpty`; with `force == true` it first burns the full
balance (reported via `on_tokens_burned`), then removes the entry and
notifies `on_account_closed` with the pre-close balance. -/
def unregister (s : FT) (id : AccountId) (force : Bool) : Except FtError FT :=
  match lookupBal s.accounts id with
  | none => Except.error FtError.NotRegistered
  | some b =>
    if force then
      Except.ok { s with
        accounts := removeAcc s.accounts id,
        events := Event.accountClosed id b :: Event.tokensBurned id b :: s.events }
    else if b = 0 then
      Except.ok { s with
        accounts := removeAcc s.accounts id,
        events := Event.accountClosed id b :: s.events }
    else Except.error FtError.BalanceNotEmpty

/-- Modelled from the spec (§6): `balance_of(id)` is a pure read that
fails with `NotRegistered` for an unregistered account. -/
def balance_of (s : FT) (id : AccountId) : Except FtError Nat :=
  match lookupBal s.accounts id with
  | none => Except.error FtError.NotRegistered
  | some b => Except.ok b

/-- Modelled from the spec (§6): `total_supply()` is a pure read. -/
def total_supply (s : FT) : Nat := s.total_supply

/-- Modelled from the spec (§4.2 step 5 and §8 deposit exactness, missing
macro expansion): registering through the deposit escrow with `attached`
value against a minimum bond `minBond`.  Returns the post-state (or the
failure) together with the refund sent back to the caller. -/
def storage_deposit (minBond : Nat) (s : FT) (id : AccountId) (attached : Nat) :
    Except FtError FT × Nat :=
  match lookupBal s.accounts id with
  | some _ => (Except.error FtError.AlreadyRegistered, attached)
  | none =>
    if attached < minBond then (Except.error FtError.InsufficientDeposit, attached)
    else (Except.ok { s with accounts := (id, 0) :: s.accounts }, attached - minBond)

/-- From `lib.rs` lines 60-75: `new(owner_id, total_supply, metadata)`
constructs a fresh token, registers the owner and deposits the whole
supply into the owner's account (the register/deposit internals are the
spec-modelled ledger primitives above). -/
def newContract (owner : AccountId) (T : Nat) : Except FtError FT :=
  match register { accounts := [], total_supply := T, events := [] } owner with
  | Except.error e => Except.error e
  | Except.ok s1 => deposit s1 owner T

/-- One atomic step of the external interface: registration, the transfer
phase of `transfer` / `transfer_and_call`, the settlement phase of
`transfer_and_call`, or unregistration. -/
inductive Op
  | register (id : AccountId)
  | transfer (src dst : AccountId) (amount : Nat)
  | transfer_call (src dst : AccountId) (amount : Nat)
  | resolve_transfer (src dst : AccountId) (amount : Nat) (o : Outcome)
  | unregister (id : AccountId) (force : Bool)
  deriving DecidableEq, Repr

/-- Keep the old state when a call fails (a failed call rolls back, §5). -/
def orOld (r : Except FtError FT) (s : FT) : FT :=
  match r with
  | Except.ok s2 => s2
  | Except.error _ => s

/-- Apply one operation; a failing operation leaves the state unchanged. -/
def applyOp (s : FT) : Op → FT
  | Op.register id => orOld (register s id) s
  | Op.transfer a b amt => orOld (transfer s a b amt none) s
  | Op.transfer_call a b amt => orOld (transfer s a b amt none) s
  | Op.resolve_transfer a b amt o => (resolve s a b amt o).1
  | Op.unregister id f => orOld (unregister s id f) s

/-- Run a sequence of operations from a state. -/
def runOps (s : FT) (ops : List Op) : FT := ops.foldl applyOp s

/-- From `lib.rs` line 37: the fixed genesis supply used by
`new_default_meta`. -/
def TOTAL_SUPPLY : Nat := 100000000000000000000000000

/-- From `lib.rs` lines 42-56: `new_default_meta(owner_id)` delegates to
`new` with the fixed `TOTAL_SUPPLY` (and the static DOJO metadata, which
carries no ledger state). -/
def new_default_meta (owner : AccountId) : Except FtError FT :=
  newContract owner TOTAL_SUPPLY

/-- A host-level call: initialization (`new` / `new_default_meta`) or any
other entry point. -/
inductive Call
  | init (owner : AccountId) (T : Nat)
  | call (o : Op)
  deriving DecidableEq, Repr

/-- From `lib.rs` line 66: `new` is `#[init]` and asserts
`!env::state_exists()` with message "Already initialized".  Modelled from
the spec (§9) for the part outside this repository: the contract derives
`PanicOnDefault`, so the SDK dispatch panics with "The contract is not
initialized" on any entry point reached before initialization instead of
operating on a default-constructed ledger.  A panic aborts the call. -/
def hostStep : Option FT → Call → Except String (Option FT)
  | some _, Call.init _ _ => Except.error "Already initialized"
  | none, Call.init owner T =>
    match newContract owner T with
    | Except.ok s => Except.ok (some s)
    | Except.error _ => Except.error "Balance overflow"
  | none, Call.call _ => Except.error "The contract is not initialized"
  | some s, Call.call o => Except.ok (some (applyOp s o))

/-- The persistent state after a host call: a panicking call leaves it
exactly as it was. -/
def stepState (st : Option FT) (c : Call) : Option FT :=
  match hostStep st c with
  | Except.ok st2 => st2
  | Except.error _ => st

/-- Run a sequence of host calls. -/
def hostRun : Option FT → List Call → Option FT
  | st, [] => st
  | st, c :: cs => hostRun (stepState st c) cs

/-- Whether a host call successfully initializes the contract. -/
def isInitSuccess (st : Option FT) (c : Call) : Bool :=
  match c, hostStep st c with
  | Call.init _ _, Except.ok _ => true
  | _, _ => false

/-- Number of calls in a run that successfully initialize the contract. -/
def initCount : Option FT → List Call → Nat
  | _, [] => 0
  | st, c :: cs =>
    (if isInitSuccess st c then 1 else 0) + initCount (stepState st c) cs

/-- A small concrete ledger used to witness the theorems below. -/
def demoS : FT :=
  { accounts := [("alice", 100), ("bob", 30)], total_supply := 130, events := [] }

/-! ### Association-list lemmas -/

theorem lookupBal_eq_none {l : List (AccountId × Nat)} {id : AccountId} :
    lookupBal l id = none ↔ id ∉ l.map Prod.fst := by
  induction l with
  | nil => simp [lookupBal]
  | cons p t ih =>
    obtain ⟨k, v⟩ := p
    by_cases hk : k = id
    · subst hk; simp [lookupBal]
    · simp [lookupBal, hk, ih, Ne.symm hk]

theorem sumBal_setBal {l : List (AccountId × Nat)} {id : AccountId} {b : Nat}
    (v : Nat) (h : lookupBal l id = some b) :
    sumBal (setBal l id v) + b = sumBal l + v := by
  induction l with
  | nil => simp [lookupBal] at h
  | cons p t ih =>
    obtain ⟨k, w⟩ := p
    by_cases hk : k = id
    · subst hk
      simp [lookupBal] at h
      subst h
      simp [setBal, sumBal]
      omega
    · simp [lookupBal, hk] at h
      have := ih h
      simp [setBal, hk, sumBal]
      omega

theorem keys_setBal (l : List (AccountId × Nat)) (id : AccountId) (v : Nat) :
    (setBal l id v).map Prod.fst = l.map Prod.fst := by
  induction l with
  | nil => simp [setBal]
  | cons p t ih =>
    obtain ⟨k, w⟩ := p
    by_cases hk : k = id
    · simp [setBal, hk]
    · simp [setBal, hk, ih]

theorem lookupBal_setBal_self {l : List (AccountId × Nat)} {id : AccountId} {b : Nat}
    (v : Nat) (h : lookupBal l id = some b) :
    lookupBal (setBal l id v) id = some v := by
  induction l with
  | nil => simp [lookupBal] at h
  | cons p t ih =>
    obtain ⟨k, w⟩ := p
    by_cases hk : k = id
    · simp [setBal, hk, lookupBal]
    · simp [lookupBal, hk] at h
      simp [setBal, hk, lookupBal, ih h]

theorem lookupBal_setBal_ne {id k : AccountId} (l : List (AccountId × Nat))
    (v : Nat) (h : id ≠ k) :
    lookupBal (setBal l id v) k = lookupBal l k := by
  induction l with
  | nil => simp [setBal]
  | cons p t ih =>
    obtain ⟨k2, w⟩ := p
    by_cases hk : k2 = id
    · subst hk
      simp [setBal, lookupBal, h]
    · simp [setBal, hk, lookupBal, ih]

theorem sumBal_removeAcc {l : List (AccountId × Nat)} {id : AccountId} {b : Nat}
    (h : lookupBal l id = some b) :
    sumBal (removeAcc l id) + b = sumBal l := by
  induction l with
  | nil => simp [lookupBal] at h
  | cons p t ih =>
    obtain ⟨k, w⟩ := p
    by_cases hk : k = id
    · subst hk
      simp [lookupBal] at h
      subst h
      simp [removeAcc, sumBal]
      omega
    · simp [lookupBal, hk] at h
      have := ih h
      simp [removeAcc, hk, sumBal]
      omega

theorem keys_removeAcc_sublist (l : List (AccountId × Nat)) (id : AccountId) :
    ((removeAcc l id).map Prod.fst).Sublist (l.map Prod.fst) := by
  induction l with
  | nil => simp [removeAcc]
  | cons p t ih =>
    obtain ⟨k, w⟩ := p
    by_cases hk : k = id
    · simp [removeAcc, hk]
    · simp [removeAcc, hk]
      exact ih

theorem lookupBal_removeAcc_self {l : List (AccountId × Nat)} {id : AccountId}
    (h : (l.map Prod.fst).Nodup) :
    lookupBal (removeAcc l id) id = none := by
  induction l with
  | nil => simp [removeAcc, lookupBal]
  | cons p t ih =>
    obtain ⟨k, w⟩ := p
    rw [List.map_cons, List.nodup_cons] at h
    by_cases hk : k = id
    · subst hk
      simp [removeAcc]
      exact lookupBal_eq_none.mpr h.1
    · simp [removeAcc, hk, lookupBal, ih h.2]

theorem lookupBal_removeAcc_ne {id k : AccountId} (l : List (AccountId × Nat))
    (h : id ≠ k) :
    lookupBal (removeAcc l id) k = lookupBal l k := by
  induction l with
  | nil => simp [removeAcc]
  | cons p t ih =>
    obtain ⟨k2, w⟩ := p
    by_cases hk : k2 = id
    · subst hk
      simp [removeAcc, lookupBal, h]
    · simp [removeAcc, hk, lookupBal, ih]

theorem lookupBal_setBal_isSome {l : List (AccountId × Nat)} {id : AccountId}
    (k : AccountId) (v : Nat) (h : (lookupBal l id).isSome) :
    (lookupBal (setBal l k v) id).isSome := by
  by_cases hk : k = id
  · subst hk
    obtain ⟨b, hb⟩ := Option.isSome_iff_exists.mp h
    rw [lookupBal_setBal_self v hb]
    rfl
  · rw [lookupBal_setBal_ne l v hk]
    exact h

/-! ### The ledger invariant -/

/-- The ledger invariant: the account table has pairwise-distinct keys and
the ledger is solvent — the sum of all registered balances plus all burned
amounts equals the (fixed) total supply. -/
def Inv (s : FT) : Prop :=
  (s.accounts.map Prod.fst).Nodup ∧
    sumBal s.accounts + burnedTotal s.events = s.total_supply

theorem inv_register_ok {s s2 : FT} {id : AccountId}
    (hok : register s id = Except.ok s2) (h : Inv s) : Inv s2 := by
  unfold register at hok
  split at hok
  · cases hok
  · rename_i hnone
    cases hok
    refine ⟨?_, ?_⟩
    · rw [List.map_cons, List.nodup_cons]
      exact ⟨lookupBal_eq_none.mp hnone, h.1⟩
    · simpa [sumBal] using h.2

theorem inv_transfer_ok {s s2 : FT} {src dst : AccountId} {amount : Nat}
    {memo : Option String}
    (hok : transfer s src dst amount memo = Except.ok s2) (h : Inv s) : Inv s2 := by
  unfold transfer at hok
  split at hok
  · cases hok
  split at hok
  · cases hok
  rename_i hne _
  split at hok
  · cases hok
  · cases hok
  · rename_i bs bd hsrc hdst
    split at hok
    · cases hok
    split at hok
    · cases hok
    rename_i hbal hov
    cases hok
    have hdst2 : lookupBal (setBal s.accounts src (bs - amount)) dst = some bd := by
      rw [lookupBal_setBal_ne _ _ hne]
      exact hdst
    have e1 := sumBal_setBal (bs - amount) hsrc
    have e2 := sumBal_setBal (bd + amount) hdst2
    have h2 := h.2
    refine ⟨?_, ?_⟩
    · rw [keys_setBal, keys_setBal]
      exact h.1
    · dsimp only
      omega

theorem inv_applyRefund {s : FT} {sender receiver : AccountId} {refund rb : Nat}
    (hrecv : lookupBal s.accounts receiver = some rb)
    (hsend : (lookupBal s.accounts sender).isSome)
    (hle : refund ≤ rb) (h : Inv s) :
    Inv (applyRefund s sender receiver refund) := by
  have hgd : (lookupBal s.accounts receiver).getD 0 = rb := by rw [hrecv]; rfl
  simp only [applyRefund, hgd]
  set acc1 := setBal s.accounts receiver (rb - refund) with hacc1
  have e1 := sumBal_setBal (rb - refund) hrecv
  have hs1 : (lookupBal acc1 sender).isSome :=
    lookupBal_setBal_isSome receiver (rb - refund) hsend
  obtain ⟨bs, hbs⟩ := Option.isSome_iff_exists.mp hs1
  have e2 := sumBal_setBal (bs + refund) hbs
  have h2 := h.2
  simp only [hbs, Option.getD_some]
  refine ⟨?_, ?_⟩
  · rw [keys_setBal, hacc1, keys_setBal]
    exact h.1
  · rw [← hacc1] at e1
    dsimp only
    omega

theorem inv_resolve {s : FT} (sender receiver : AccountId) (amount : Nat)
    (o : Outcome) (h : Inv s) : Inv (resolve s sender receiver amount o).1 := by
  unfold resolve
  rcases hsend : lookupBal s.accounts sender with _ | b0
  · simp only [hsend]
    exact h
  · simp only [hsend]
    by_cases hr : refundAmount s receiver amount o = 0
    · rw [if_pos hr]
      exact h
    · rw [if_neg hr]
      have hrb : ∃ rb, lookupBal s.accounts receiver = some rb := by
        rcases he : lookupBal s.accounts receiver with _ | rb
        · exfalso
          apply hr
          unfold refundAmount
          rw [he]
          simp
        · exact ⟨rb, rfl⟩
      obtain ⟨rb, hrecv⟩ := hrb
      have hle : refundAmount s receiver amount o ≤ rb := by
        unfold refundAmount
        rw [hrecv]
        simp
      exact inv_applyRefund hrecv (by rw [hsend]; rfl) hle h

theorem inv_unregister_ok {s s2 : FT} {id : AccountId} {force : Bool}
    (hok : unregister s id force = Except.ok s2) (h : Inv s) : Inv s2 := by
  unfold unregister at hok
  split at hok
  · cases hok
  · rename_i b hid
    split at hok
    · cases hok
      have e1 := sumBal_removeAcc hid
      refine ⟨?_, ?_⟩
      · exact h.1.sublist (keys_removeAcc_sublist s.accounts id)
      · have h2 := h.2
        simp only [burnedTotal]
        omega
    · split at hok
      · rename_i hb0
        cases hok
        have e1 := sumBal_removeAcc hid
        refine ⟨?_, ?_⟩
        · exact h.1.sublist (keys_removeAcc_sublist s.accounts id)
        · have h2 := h.2
          simp only [burnedTotal]
          omega
      · cases hok

theorem inv_applyOp (s : FT) (op : Op) (h : Inv s) : Inv (applyOp s op) := by
  cases op with
  | register id =>
    simp only [applyOp, orOld]
    rcases he : register s id with e | s2
    · exact h
    · exact inv_register_ok he h
  | transfer a b amt =>
    simp only [applyOp, orOld]
    rcases he : transfer s a b amt none with e | s2
    · exact h
    · exact inv_transfer_ok he h
  | transfer_call a b amt =>
    simp only [applyOp, orOld]
    rcases he : transfer s a b amt none with e | s2
    · exact h
    · exact inv_transfer_ok he h
  | resolve_transfer a b amt o =>
    exact inv_resolve a b amt o h
  | unregister id f =>
    simp only [applyOp, orOld]
    rcases he : unregister s id f with e | s2
    · exact h
    · exact inv_unregister_ok he h

theorem inv_runOps (s : FT) (ops : List Op) (h : Inv s) : Inv (runOps s ops) := by
  induction ops generalizing s with
  | nil => exact h
  | cons op t ih => exact ih (applyOp s op) (inv_applyOp s op h)

/-! ### Preservation of the total supply and of the event log -/

theorem ts_register_ok {s s2 : FT} {id : AccountId}
    (h : register s id = Except.ok s2) :
    s2.total_supply = s.total_supply ∧ s2.events = s.events := by
  unfold register at h
  split at h
  · cases h
  · cases h
    exact ⟨rfl, rfl⟩

theorem ts_transfer_ok {s s2 : FT} {src dst : AccountId} {amount : Nat}
    {memo : Option String} (h : transfer s src dst amount memo = Except.ok s2) :
    s2.total_supply = s.total_supply ∧ s2.events = s.events := by
  unfold transfer at h
  split at h
  · cases h
  split at h
  · cases h
  split at h
  · cases h
  · cases h
  · split at h
    · cases h
    split at h
    · cases h
    cases h
    exact ⟨rfl, rfl⟩

theorem ts_resolve (s : FT) (sender receiver : AccountId) (amount : Nat)
    (o : Outcome) :
    (resolve s sender receiver amount o).1.total_supply = s.total_supply ∧
    (resolve s sender receiver amount o).1.events = s.events := by
  unfold resolve
  split
  · exact ⟨rfl, rfl⟩
  · split
    · exact ⟨rfl, rfl⟩
    · exact ⟨rfl, rfl⟩

theorem ts_unregister_ok {s s2 : FT} {id : AccountId} {force : Bool}
    (h : unregister s id force = Except.ok s2) :
    s2.total_supply = s.total_supply := by
  unfold unregister at h
  split at h
  · cases h
  · split at h
    · cases h
      rfl
    · split at h
      · cases h
        rfl
      · cases h

theorem ts_applyOp (s : FT) (op : Op) :
    (applyOp s op).total_supply = s.total_supply := by
  cases op with
  | register id =>
    simp only [applyOp, orOld]
    rcases he : register s id with e | s2
    · rfl
    · exact (ts_register_ok he).1
  | transfer a b amt =>
    simp only [applyOp, orOld]
    rcases he : transfer s a b amt none with e | s2
    · rfl
    · exact (ts_transfer_ok he).1
  | transfer_call a b amt =>
    simp only [applyOp, orOld]
    rcases he : transfer s a b amt none with e | s2
    · rfl
    · exact (ts_transfer_ok he).1
  | resolve_transfer a b amt o =>
    exact (ts_resolve s a b amt o).1
  | unregister id f =>
    simp only [applyOp, orOld]
    rcases he : unregister s id f with e | s2
    · rfl
    · exact ts_unregister_ok he

theorem ts_runOps (s : FT) (ops : List Op) :
    (runOps s ops).total_supply = s.total_supply := by
  induction ops generalizing s with
  | nil => rfl
  | cons op t ih =>
    calc (runOps (applyOp s op) t).total_supply
        = (applyOp s op).total_supply := ih (applyOp s op)
      _ = s.total_supply := ts_applyOp s op

/-! ### Host-level initialization lemmas -/

theorem newContract_err {owner : AccountId} {T : Nat} (hT : U128_MAX < T) :
    newContract owner T = Except.error FtError.Overflow := by
  unfold newContract register deposit
  simp [lookupBal, hT]

theorem newContract_eq {owner : AccountId} {T : Nat} (hT : ¬ U128_MAX < T) :
    newContract owner T =
      Except.ok { accounts := [(owner, T)], total_supply := T, events := [] } := by
  unfold newContract register deposit
  simp [lookupBal, setBal, hT]

theorem newContract_ok {owner : AccountId} {T : Nat} {s0 : FT}
    (h : newContract owner T = Except.ok s0) :
    T ≤ U128_MAX ∧
    s0 = { accounts := [(owner, T)], total_supply := T, events := [] } := by
  by_cases hT : U128_MAX < T
  · rw [newContract_err hT] at h
    cases h
  · rw [newContract_eq hT] at h
    cases h
    exact ⟨by omega, rfl⟩

theorem initCount_some (s : FT) (cs : List Call) :
    initCount (some s) cs = 0 := by
  induction cs generalizing s with
  | nil => rfl
  | cons c t ih =>
    cases c with
    | init owner T =>
      simp [initCount, isInitSuccess, hostStep, stepState]
      exact ih s
    | call o =>
      simp [initCount, isInitSuccess, hostStep, stepState]
      exact ih (applyOp s o)

theorem initCount_none_le_one (cs : List Call) :
    initCount none cs ≤ 1 := by
  induction cs with
  | nil => simp [initCount]
  | cons c t ih =>
    cases c with
    | init owner T =>
      rcases he : newContract owner T with e | s0
      · simp [initCount, isInitSuccess, hostStep, stepState, he]
        exact ih
      · simp [initCount, isInitSuccess, hostStep, stepState, he, initCount_some]
    | call o =>
      simp [initCount, isInitSuccess, hostStep, stepState]
      exact ih

theorem resolve_congr (s : FT) (a b : AccountId) (amt : Nat) {o1 o2 : Outcome}
    (h : outcomeUnused amt o1 = outcomeUnused amt o2) :
    resolve s a b amt o1 = resolve s a b amt o2 := by
  unfold resolve refundAmount
  rw [h]

/-! ### Claim theorems -/

/-- C1: for every sequence of register, transfer, transfer_and_call
(transfer phase and settlement phase) and unregister(force) operations
executed from genesis, at every observation point the sum of the balances
of all registered accounts plus the sum of all amounts reported burned
equals the genesis total supply (the account table moreover always has
pairwise-distinct keys, so `sumBal` is exactly the sum of
`balance_of(id)` over the registered ids). -/
theorem C1_conservation (owner : AccountId) (T : Nat) (s0 : FT) (ops : List Op)
    (h : newContract owner T = Except.ok s0) :
    sumBal (runOps s0 ops).accounts + burnedTotal (runOps s0 ops).events = T ∧
    ((runOps s0 ops).accounts.map Prod.fst).Nodup := by
  obtain ⟨hT, hs0⟩ := newContract_ok h
  have hInv : Inv s0 := by
    rw [hs0]
    constructor
    · simp
    · simp [sumBal, burnedTotal]
  have hrun := inv_runOps s0 ops hInv
  have hts : (runOps s0 ops).total_supply = T := by
    rw [ts_runOps, hs0]
  exact ⟨by rw [← hts]; exact hrun.2, hrun.1⟩

/-- C1 witness: a concrete genesis followed by a register, a transfer, a
settlement and a forced unregister still conserve the supply. -/
theorem C1_conservation_witness :
    newContract "owner" 1000 =
      Except.ok { accounts := [("owner", 1000)], total_supply := 1000, events := [] } ∧
    (sumBal (runOps { accounts := [("owner", 1000)], total_supply := 1000, events := [] }
        [Op.register "bob", Op.transfer_call "owner" "bob" 40,
         Op.resolve_transfer "owner" "bob" 40 (Outcome.value 15),
         Op.unregister "bob" true]).accounts +
      burnedTotal (runOps { accounts := [("owner", 1000)], total_supply := 1000, events := [] }
        [Op.register "bob", Op.transfer_call "owner" "bob" 40,
         Op.resolve_transfer "owner" "bob" 40 (Outcome.value 15),
         Op.unregister "bob" true]).events = 1000 ∧
      ((runOps { accounts := [("owner", 1000)], total_supply := 1000, events := [] }
        [Op.register "bob", Op.transfer_call "owner" "bob" 40,
         Op.resolve_transfer "owner" "bob" 40 (Outcome.value 15),
         Op.unregister "bob" true]).accounts.map Prod.fst).Nodup) := by
  have hnew : newContract "owner" 1000 =
      Except.ok { accounts := [("owner", 1000)], total_supply := 1000, events := [] } :=
    newContract_eq (by decide)
  exact ⟨hnew, C1_conservation "owner" 1000 _ _ hnew⟩

/-- C2: in transfer_and_call settlement, a receiver trap is treated as
full rejection (settled identically to a report of `unused = amount`); a
value reported above `amount` is clamped to `amount`; the refund is
clamped to the receiver's remaining balance, so the settlement step (a
total function — it cannot fail) never drives the receiver's balance
negative; and the operation returns the amount actually kept by the
receiver, `amount - refund`. -/
theorem C2_settlement (s : FT) (a b : AccountId) (amt u k rb : Nat)
    (hab : a ≠ b) (hs : (lookupBal s.accounts a).isSome = true)
    (hr : lookupBal s.accounts b = some rb) :
    resolve s a b amt Outcome.trap = resolve s a b amt (Outcome.value amt) ∧
    resolve s a b amt (Outcome.value (amt + k + 1)) =
      resolve s a b amt (Outcome.value amt) ∧
    (resolve s a b amt (Outcome.value u)).2 = amt - min (min u amt) rb ∧
    lookupBal (resolve s a b amt (Outcome.value u)).1.accounts b =
      some (rb - min (min u amt) rb) ∧
    min (min u amt) rb ≤ rb := by
  obtain ⟨b0, hb0⟩ := Option.isSome_iff_exists.mp hs
  have hrf : refundAmount s b amt (Outcome.value u) = min (min u amt) rb := by
    unfold refundAmount outcomeUnused
    rw [hr]
    rfl
  have hres : resolve s a b amt (Outcome.value u) =
      if min (min u amt) rb = 0 then (s, amt)
      else (applyRefund s a b (min (min u amt) rb), amt - min (min u amt) rb) := by
    unfold resolve
    simp only [hb0, hrf]
  refine ⟨?_, ?_, ?_, ?_, Nat.min_le_right _ _⟩
  · exact resolve_congr s a b amt (by simp [outcomeUnused])
  · exact resolve_congr s a b amt (by simp only [outcomeUnused]; omega)
  · rw [hres]
    by_cases hz : min (min u amt) rb = 0
    · rw [if_pos hz, hz]
      rfl
    · rw [if_neg hz]
  · rw [hres]
    by_cases hz : min (min u amt) rb = 0
    · rw [if_pos hz, hz]
      simpa using hr
    · rw [if_neg hz]
      have hgd : (lookupBal s.accounts b).getD 0 = rb := by rw [hr]; rfl
      simp only [applyRefund, hgd]
      rw [lookupBal_setBal_ne _ _ hab]
      exact lookupBal_setBal_self _ hr

/-- C2 witness: a concrete settlement where the receiver reports 15
unused out of 40 and still holds 30. -/
theorem C2_settlement_witness :
    "alice" ≠ "bob" ∧
    (lookupBal demoS.accounts "alice").isSome = true ∧
    lookupBal demoS.accounts "bob" = some 30 ∧
    (resolve demoS "alice" "bob" 40 Outcome.trap =
        resolve demoS "alice" "bob" 40 (Outcome.value 40) ∧
      resolve demoS "alice" "bob" 40 (Outcome.value (40 + 2 + 1)) =
        resolve demoS "alice" "bob" 40 (Outcome.value 40) ∧
      (resolve demoS "alice" "bob" 40 (Outcome.value 15)).2 =
        40 - min (min 15 40) 30 ∧
      lookupBal (resolve demoS "alice" "bob" 40 (Outcome.value 15)).1.accounts "bob" =
        some (30 - min (min 15 40) 30) ∧
      min (min 15 40) 30 ≤ 30) :=
  ⟨by decide, by decide, by decide,
    C2_settlement demoS "alice" "bob" 40 15 2 30 (by decide) (by decide) (by decide)⟩

/-- C3: `transfer(from, to, amount, memo)` fails with
`SelfTransferNotAllowed` when `from == to`, with `ZeroAmount` when
`amount == 0`, with `NotRegistered` when either account is absent, and
with `InsufficientBalance` when the sender's balance is below `amount`;
and every failing transfer leaves the ledger (hence both balances)
exactly as it was before the call. -/
theorem C3_transfer_errors (s : FT) (a b : AccountId) (amt ba bb : Nat)
    (m : Option String) :
    transfer s a a amt m = Except.error FtError.SelfTransferNotAllowed ∧
    (a ≠ b → transfer s a b 0 m = Except.error FtError.ZeroAmount) ∧
    (a ≠ b → amt ≠ 0 → lookupBal s.accounts a = none →
      transfer s a b amt m = Except.error FtError.NotRegistered) ∧
    (a ≠ b → amt ≠ 0 → lookupBal s.accounts b = none →
      transfer s a b amt m = Except.error FtError.NotRegistered) ∧
    (a ≠ b → amt ≠ 0 → lookupBal s.accounts a = some ba → ba < amt →
      lookupBal s.accounts b = some bb →
      transfer s a b amt m = Except.error FtError.InsufficientBalance) ∧
    (∀ e, transfer s a b amt none = Except.error e →
      applyOp s (Op.transfer a b amt) = s) := by
  refine ⟨?_, ?_, ?_, ?_, ?_, ?_⟩
  · simp [transfer]
  · intro hab
    simp [transfer, hab]
  · intro hab hamt ha
    simp [transfer, hab, hamt, ha]
  · intro hab hamt hb
    rcases ha : lookupBal s.accounts a with _ | ba2
    · simp [transfer, hab, hamt, ha]
    · simp [transfer, hab, hamt, ha, hb]
  · intro hab hamt ha hba hb
    simp [transfer, hab, hamt, ha, hb, hba]
  · intro e he
    simp [applyOp, orOld, he]

/-- C3 witness: each failure mode on a concrete ledger, and the
unchanged state after a failing transfer. -/
theorem C3_transfer_errors_witness :
    transfer demoS "alice" "alice" 5 none =
      Except.error FtError.SelfTransferNotAllowed ∧
    transfer demoS "alice" "bob" 0 none = Except.error FtError.ZeroAmount ∧
    transfer demoS "alice" "carol" 5 none =
      Except.error FtError.NotRegistered ∧
    transfer demoS "alice" "bob" 500 none =
      Except.error FtError.InsufficientBalance ∧
    applyOp demoS (Op.transfer "alice" "bob" 500) = demoS := by
  have h := C3_transfer_errors demoS "alice" "bob" 500 100 30 none
  have h2 := C3_transfer_errors demoS "alice" "carol" 5 100 0 none
  have hins : transfer demoS "alice" "bob" 500 none =
      Except.error FtError.InsufficientBalance :=
    h.2.2.2.2.1 (by decide) (by decide) (by decide) (by decide) (by decide)
  refine ⟨(C3_transfer_errors demoS "alice" "alice" 5 100 30 none).1,
    h.2.1 (by decide),
    h2.2.2.2.1 (by decide) (by decide) (by decide),
    hins,
    h.2.2.2.2.2 FtError.InsufficientBalance hins⟩

/-- C4: immediately after a successful initialization `new(owner, T,
metadata)`, `total_supply()` returns `T`, `balance_of(owner)` returns `T`,
and `balance_of` fails with `NotRegistered` for every other account. -/
theorem C4_genesis (owner : AccountId) (T : Nat) (hT : T ≤ U128_MAX) :
    ∃ s, newContract owner T = Except.ok s ∧
      total_supply s = T ∧
      balance_of s owner = Except.ok T ∧
      ∀ id, id ≠ owner → balance_of s id = Except.error FtError.NotRegistered := by
  refine ⟨{ accounts := [(owner, T)], total_supply := T, events := [] },
    newContract_eq (by omega), rfl, ?_, ?_⟩
  · simp [balance_of, lookupBal]
  · intro id hid
    simp [balance_of, lookupBal, Ne.symm hid]

/-- C4 witness at a concrete owner and supply. -/
theorem C4_genesis_witness :
    (100 : Nat) ≤ U128_MAX ∧
    ∃ s, newContract "o" 100 = Except.ok s ∧
      total_supply s = 100 ∧
      balance_of s "o" = Except.ok 100 ∧
      ∀ id, id ≠ "o" → balance_of s id = Except.error FtError.NotRegistered :=
  ⟨by decide, C4_genesis "o" 100 (by decide)⟩

/-- C5: `total_supply()` is constant after genesis — no operation changes
it; register, transfer, transfer_and_call (both phases) never touch the
burn/close log, so only the forced-close path burns; and force-closing an
account with balance 30 leaves `total_supply` decreased by 0 while the
burn log records 30. -/
theorem C5_supply_constant (s : FT) (ops : List Op) (id a b : AccountId)
    (amt : Nat) (o : Outcome) (hid : lookupBal s.accounts id = some 30) :
    (runOps s ops).total_supply = s.total_supply ∧
    (applyOp s (Op.register a)).events = s.events ∧
    (applyOp s (Op.transfer a b amt)).events = s.events ∧
    (applyOp s (Op.transfer_call a b amt)).events = s.events ∧
    (applyOp s (Op.resolve_transfer a b amt o)).events = s.events ∧
    ∃ s2, unregister s id true = Except.ok s2 ∧
      s2.total_supply = s.total_supply ∧
      burnedTotal s2.events = 30 + burnedTotal s.events := by
  refine ⟨ts_runOps s ops, ?_, ?_, ?_, ?_, ?_⟩
  · simp only [applyOp, orOld]
    rcases he : register s a with e | s2
    · rfl
    · exact (ts_register_ok he).2
  · simp only [applyOp, orOld]
    rcases he : transfer s a b amt none with e | s2
    · rfl
    · exact (ts_transfer_ok he).2
  · simp only [applyOp, orOld]
    rcases he : transfer s a b amt none with e | s2
    · rfl
    · exact (ts_transfer_ok he).2
  · exact (ts_resolve s a b amt o).2
  · have hu : unregister s id true = Except.ok
        { s with accounts := removeAcc s.accounts id,
                 events := Event.accountClosed id 30 ::
                   Event.tokensBurned id 30 :: s.events } := by
      unfold unregister
      rw [hid]
      rfl
    exact ⟨_, hu, rfl, by simp [burnedTotal]⟩

/-- C5 witness on a concrete ledger holding an account with balance 30. -/
theorem C5_supply_constant_witness :
    lookupBal demoS.accounts "bob" = some 30 ∧
    ((runOps demoS [Op.transfer "alice" "bob" 10]).total_supply =
        demoS.total_supply ∧
      (applyOp demoS (Op.register "carol")).events = demoS.events ∧
      (applyOp demoS (Op.transfer "alice" "bob" 10)).events = demoS.events ∧
      (applyOp demoS (Op.transfer_call "alice" "bob" 10)).events = demoS.events ∧
      (applyOp demoS (Op.resolve_transfer "alice" "bob" 10 (Outcome.value 3))).events
          = demoS.events ∧
      ∃ s2, unregister demoS "bob" true = Except.ok s2 ∧
        s2.total_supply = demoS.total_supply ∧
        burnedTotal s2.events = 30 + burnedTotal demoS.events) :=
  ⟨by decide,
    C5_supply_constant demoS [Op.transfer "alice" "bob" 10] "bob" "alice" "bob"
      10 (Outcome.value 3) (by decide)⟩

/-- C6: registering an unregistered account with attached value exactly
equal to the minimum bond succeeds and refunds 0; with attached value
strictly below the minimum it fails with `InsufficientDeposit` and
refunds the full attached amount; with attached value above the minimum
it succeeds and refunds exactly `attached - minimum`. -/
theorem C6_deposit_exactness (mb : Nat) (s : FT) (id : AccountId) (att : Nat)
    (hid : lookupBal s.accounts id = none) :
    storage_deposit mb s id mb =
      (Except.ok { s with accounts := (id, 0) :: s.accounts }, 0) ∧
    (att < mb → storage_deposit mb s id att =
      (Except.error FtError.InsufficientDeposit, att)) ∧
    (mb ≤ att → storage_deposit mb s id att =
      (Except.ok { s with accounts := (id, 0) :: s.accounts }, att - mb)) := by
  refine ⟨?_, ?_, ?_⟩
  · unfold storage_deposit
    rw [hid]
    simp
  · intro hlt
    unfold storage_deposit
    rw [hid]
    simp [hlt]
  · intro hge
    unfold storage_deposit
    rw [hid]
    simp [Nat.not_lt.mpr hge]

/-- C6 witness: bond 125, attachments 125, 40 and 200. -/
theorem C6_deposit_exactness_witness :
    lookupBal demoS.accounts "carol" = none ∧
    (storage_deposit 125 demoS "carol" 125 =
        (Except.ok { demoS with accounts := ("carol", 0) :: demoS.accounts }, 0) ∧
      (40 < 125 → storage_deposit 125 demoS "carol" 40 =
        (Except.error FtError.InsufficientDeposit, 40)) ∧
      (125 ≤ 200 → storage_deposit 125 demoS "carol" 200 =
        (Except.ok { demoS with accounts := ("carol", 0) :: demoS.accounts },
          200 - 125))) ∧
    storage_deposit 125 demoS "carol" 40 =
      (Except.error FtError.InsufficientDeposit, 40) ∧
    storage_deposit 125 demoS "carol" 200 =
      (Except.ok { demoS with accounts := ("carol", 0) :: demoS.accounts }, 75) := by
  have h125 := C6_deposit_exactness 125 demoS "carol" 125 (by decide)
  have h40 := C6_deposit_exactness 125 demoS "carol" 40 (by decide)
  have h200 := C6_deposit_exactness 125 demoS "carol" 200 (by decide)
  exact ⟨by decide, ⟨h125.1, h40.2.1, h200.2.2⟩,
    h40.2.1 (by decide), h200.2.2 (by decide)⟩

/-- C7: `unregister(id, force)` on a registered account with positive
balance fails with `BalanceNotEmpty` when `force == false`; with
`force == true` it burns the full balance (the `on_tokens_burned` hook
reports exactly that amount), removes the account entry, and invokes the
`on_account_closed` hook with the pre-close balance. -/
theorem C7_unregister_force (s : FT) (id : AccountId) (b : Nat)
    (hid : lookupBal s.accounts id = some b) :
    (0 < b → unregister s id false = Except.error FtError.BalanceNotEmpty) ∧
    unregister s id true = Except.ok
      { s with accounts := removeAcc s.accounts id,
               events := Event.accountClosed id b ::
                 Event.tokensBurned id b :: s.events } ∧
    ∀ s2, unregister s id true = Except.ok s2 →
      burnedTotal s2.events = b + burnedTotal s.events := by
  have hforce : unregister s id true = Except.ok
      { s with accounts := removeAcc s.accounts id,
               events := Event.accountClosed id b ::
                 Event.tokensBurned id b :: s.events } := by
    unfold unregister
    rw [hid]
    rfl
  refine ⟨?_, hforce, ?_⟩
  · intro hb
    unfold unregister
    rw [hid]
    simp [Nat.pos_iff_ne_zero.mp hb]
  · intro s2 h2
    rw [hforce] at h2
    cases h2
    simp [burnedTotal]

/-- C7 witness: account "bob" with balance 30. -/
theorem C7_unregister_force_witness :
    lookupBal demoS.accounts "bob" = some 30 ∧ (0 : Nat) < 30 ∧
    unregister demoS "bob" false = Except.error FtError.BalanceNotEmpty ∧
    unregister demoS "bob" true = Except.ok
      { demoS with accounts := removeAcc demoS.accounts "bob",
                   events := Event.accountClosed "bob" 30 ::
                     Event.tokensBurned "bob" 30 :: demoS.events } := by
  have h := C7_unregister_force demoS "bob" 30 (by decide)
  exact ⟨by decide, by decide, h.1 (by decide), h.2.1⟩

/-- C8: calling `register(id)` on an already-registered id fails with
`AlreadyRegistered`, and the failing call leaves the state unchanged. -/
theorem C8_register_twice (s : FT) (id : AccountId)
    (h : (lookupBal s.accounts id).isSome = true) :
    register s id = Except.error FtError.AlreadyRegistered ∧
    applyOp s (Op.register id) = s := by
  obtain ⟨b, hb⟩ := Option.isSome_iff_exists.mp h
  have herr : register s id = Except.error FtError.AlreadyRegistered := by
    unfold register
    rw [hb]
  exact ⟨herr, by simp [applyOp, orOld, herr]⟩

/-- C8 witness: re-registering "alice" fails and changes nothing. -/
theorem C8_register_twice_witness :
    (lookupBal demoS.accounts "alice").isSome = true ∧
    register demoS "alice" = Except.error FtError.AlreadyRegistered ∧
    applyOp demoS (Op.register "alice") = demoS :=
  ⟨by decide, C8_register_twice demoS "alice" (by decide)⟩

/-- C9: `balance_of(id)` fails with `NotRegistered` for every id that is
not currently registered — both for ids absent from the table and for ids
just unregistered (forced or not). -/
theorem C9_balance_of_unregistered (s : FT) (id : AccountId) (f : Bool) :
    (lookupBal s.accounts id = none →
      balance_of s id = Except.error FtError.NotRegistered) ∧
    (∀ s2, (s.accounts.map Prod.fst).Nodup → unregister s id f = Except.ok s2 →
      balance_of s2 id = Except.error FtError.NotRegistered) := by
  constructor
  · intro h
    unfold balance_of
    rw [h]
  · intro s2 hnd h2
    have hacc : s2.accounts = removeAcc s.accounts id := by
      unfold unregister at h2
      split at h2
      · cases h2
      · split at h2
        · cases h2
          rfl
        · split at h2
          · cases h2
            rfl
          · cases h2
    unfold balance_of
    rw [hacc, lookupBal_removeAcc_self hnd]

/-- C9 witness: an id never registered, and "bob" force-closed. -/
theorem C9_balance_of_unregistered_witness :
    balance_of demoS "carol" = Except.error FtError.NotRegistered ∧
    ∃ s2, unregister demoS "bob" true = Except.ok s2 ∧
      balance_of s2 "bob" = Except.error FtError.NotRegistered := by
  have hc := (C9_balance_of_unregistered demoS "carol" true).1 (by decide)
  have hb : unregister demoS "bob" true = Except.ok
      { demoS with accounts := removeAcc demoS.accounts "bob",
                   events := Event.accountClosed "bob" 30 ::
                     Event.tokensBurned "bob" 30 :: demoS.events } := rfl
  exact ⟨hc, _, hb,
    (C9_balance_of_unregistered demoS "bob" true).2 _ (by decide) hb⟩

/-- C10: initialization happens at most once — `new` (and through it
`new_default_meta`) panics with "Already initialized" whenever persistent
state exists, every entry point invoked before initialization panics with
"The contract is not initialized" instead of operating on a
default-constructed ledger (in both cases the persistent state is
untouched), and any sequence of host calls performs at most one
successful initialization. -/
theorem C10_init_once (s : FT) (owner : AccountId) (T : Nat) (o : Op)
    (cs : List Call) :
    new_default_meta owner = newContract owner TOTAL_SUPPLY ∧
    hostStep (some s) (Call.init owner T) = Except.error "Already initialized" ∧
    stepState (some s) (Call.init owner T) = some s ∧
    hostStep none (Call.call o) = Except.error "The contract is not initialized" ∧
    stepState none (Call.call o) = none ∧
    initCount none cs ≤ 1 ∧
    initCount (some s) cs = 0 :=
  ⟨rfl, rfl, rfl, rfl, rfl, initCount_none_le_one cs, initCount_some s cs⟩

end KaizoFT
